import Mathlib

/-!
Shallow embedding of `rtl_spectrum_wallpaper.py` (RTL-SDR Spectrum Wallpaper
Generator) and proofs about its specification.

Python floats are modelled as rationals (`ℚ`); all arithmetic in the embedded
functions is exact on the decimal constants appearing in the source.  Python's
`int()` truncation toward zero is modelled by `pyint`.  The capture file is
modelled as `Option (List String)`: `none` for an absent file, otherwise the
list of its lines (without trailing newline terminators, as `readlines`
followed by `strip()` makes the terminators irrelevant).
-/

namespace RtlSpectrum

/-- Python `int()` applied to a float: truncation toward zero. -/
def pyint (q : ℚ) : ℤ :=
  if q < 0 then -⌊-q⌋ else ⌊q⌋

/-! Configuration constants from the source. -/

def SCREEN_WIDTH : ℤ := 1920
def SCREEN_HEIGHT : ℤ := 1080

def BG_COLOR : ℤ × ℤ × ℤ := (10, 10, 20)
def SPECTRUM_COLOR : ℤ × ℤ × ℤ := (0, 255, 100)
def PEAK_COLOR : ℤ × ℤ × ℤ := (255, 50, 50)
def TEXT_COLOR : ℤ × ℤ × ℤ := (100, 255, 200)
def GRID_COLOR : ℤ × ℤ × ℤ := (30, 30, 50)

/-- Intensity characters (`ASCII_CHARS` in the source). -/
def ASCII_CHARS : List String := [" ", "░", "▒", "▓", "█"]

def BARS_STYLE : Bool := true

/-! The four linear segments of `spectrum_color_gradient`, written out one by
one so that continuity at the boundaries can be stated segment against
segment. -/

/-- Segment for `value < 0.3`: dark to blue. -/
def gradient_seg1 (value : ℚ) : ℤ × ℤ × ℤ :=
  (0, 0, pyint (value / (3/10) * 255))

/-- Segment for `0.3 ≤ value < 0.6`: blue to green. -/
def gradient_seg2 (value : ℚ) : ℤ × ℤ × ℤ :=
  let t := (value - 3/10) / (3/10)
  (0, pyint (t * 255), pyint ((1 - t) * 255))

/-- Segment for `0.6 ≤ value < 0.8`: green to yellow. -/
def gradient_seg3 (value : ℚ) : ℤ × ℤ × ℤ :=
  let t := (value - 6/10) / (2/10)
  (pyint (t * 255), 255, 0)

/-- Segment for `0.8 ≤ value`: yellow to red. -/
def gradient_seg4 (value : ℚ) : ℤ × ℤ × ℤ :=
  let t := (value - 8/10) / (2/10)
  (255, pyint ((1 - t) * 255), 0)

/-- `spectrum_color_gradient` from the source: piecewise over the four
linearly interpolated segments. -/
def spectrum_color_gradient (value : ℚ) : ℤ × ℤ × ℤ :=
  if value < 3/10 then gradient_seg1 value
  else if value < 6/10 then gradient_seg2 value
  else if value < 8/10 then gradient_seg3 value
  else gradient_seg4 value

/-- `normalize_db_values` from the source.  Python's `min`/`max` over a
non-empty list are left folds of the binary operations. -/
def normalize_db_values (db_values : List ℚ) : List ℚ :=
  match db_values with
  | [] => []
  | x :: xs =>
    let min_db := xs.foldl min x
    let max_db := xs.foldl max x
    if max_db = min_db then
      List.replicate (x :: xs).length (1/2)
    else
      (x :: xs).map (fun db => (db - min_db) / (max_db - min_db))

theorem foldl_min_le_self (xs : List ℚ) (x : ℚ) : xs.foldl min x ≤ x := by
  induction xs generalizing x with
  | nil => simp
  | cons y ys ih =>
    calc (y :: ys).foldl min x = ys.foldl min (min x y) := rfl
    _ ≤ min x y := ih _
    _ ≤ x := min_le_left _ _

theorem foldl_min_le_mem (xs : List ℚ) (x y : ℚ) (hy : y ∈ xs) :
    xs.foldl min x ≤ y := by
  induction xs generalizing x with
  | nil => simp at hy
  | cons z zs ih =>
    rcases List.mem_cons.mp hy with h | h
    · subst h
      calc (y :: zs).foldl min x = zs.foldl min (min x y) := rfl
      _ ≤ min x y := foldl_min_le_self _ _
      _ ≤ y := min_le_right _ _
    · exact ih _ h

theorem self_le_foldl_max (xs : List ℚ) (x : ℚ) : x ≤ xs.foldl max x := by
  induction xs generalizing x with
  | nil => simp
  | cons y ys ih =>
    calc x ≤ max x y := le_max_left _ _
    _ ≤ ys.foldl max (max x y) := ih _
    _ = (y :: ys).foldl max x := rfl

theorem mem_le_foldl_max (xs : List ℚ) (x y : ℚ) (hy : y ∈ xs) :
    y ≤ xs.foldl max x := by
  induction xs generalizing x with
  | nil => simp at hy
  | cons z zs ih =>
    rcases List.mem_cons.mp hy with h | h
    · subst h
      calc y ≤ max x y := le_max_right _ _
      _ ≤ zs.foldl max (max x y) := self_le_foldl_max _ _
      _ = (y :: zs).foldl max x := rfl
    · exact ih _ h

theorem foldl_min_le_foldl_max (xs : List ℚ) (x : ℚ) :
    xs.foldl min x ≤ xs.foldl max x :=
  le_trans (foldl_min_le_self xs x) (self_le_foldl_max xs x)

/-! The sweep reader.  `str.strip()` and `float(...)` are modelled below;
`float` is modelled on finite decimal literals (optional sign, digits with an
optional fractional part, optional decimal exponent), which is the fragment
the capture tool's CSV produces; any other string makes it fail, standing for
the `ValueError` that `read_spectrum_data`'s `except` clause turns into
`None`. -/

/-- Whitespace characters removed by Python's `str.strip()`. -/
def isPySpace (c : Char) : Bool :=
  c = ' ' ∨ c = '\t' ∨ c = '\n' ∨ c = '\r' ∨ c = '\x0b' ∨ c = '\x0c'

/-- Python `str.strip()`: drop leading and trailing whitespace. -/
def pyStrip (s : String) : String :=
  ⟨(((s.toList.dropWhile isPySpace).reverse.dropWhile isPySpace).reverse)⟩

/-- Numeric value of a digit string (most significant first). -/
def digitsVal (l : List Char) : ℕ :=
  l.foldl (fun a c => 10 * a + (c.toNat - 48)) 0

/-- Parse an optional sign, returning the sign and the remaining characters. -/
def parseSign (l : List Char) : ℚ × List Char :=
  match l with
  | '-' :: rest => (-1, rest)
  | '+' :: rest => (1, rest)
  | _ => (1, l)

/-- Parse a decimal exponent part (the characters after `e`/`E`). -/
def parseExpPart (l : List Char) : Option ℤ :=
  let (s, l1) := parseSign l
  let ds := l1.takeWhile Char.isDigit
  let rest := l1.dropWhile Char.isDigit
  if ds.isEmpty ∨ ¬ rest.isEmpty then none
  else some ((if s < 0 then -1 else 1) * (digitsVal ds : ℤ))

/-- Python `float(s)` on finite decimal literals, as an exact rational;
`none` models the `ValueError` raised on any other string. -/
def pyFloat (s : String) : Option ℚ :=
  let l := (pyStrip s).toList
  let (sign, l1) := parseSign l
  let intPart := l1.takeWhile Char.isDigit
  let rest1 := l1.dropWhile Char.isDigit
  let contMant : List Char → ℚ → Option ℚ := fun rest mant =>
    match rest with
    | [] => some mant
    | 'e' :: rest4 => (parseExpPart rest4).map (fun ex => mant * 10 ^ ex)
    | 'E' :: rest4 => (parseExpPart rest4).map (fun ex => mant * 10 ^ ex)
    | _ => none
  match rest1 with
  | '.' :: rest2 =>
    let fracPart := rest2.takeWhile Char.isDigit
    let rest3 := rest2.dropWhile Char.isDigit
    if intPart.isEmpty ∧ fracPart.isEmpty then none
    else contMant rest3
      (sign * ((digitsVal intPart : ℚ) +
        (digitsVal fracPart : ℚ) / 10 ^ fracPart.length))
  | _ =>
    if intPart.isEmpty then none
    else contMant rest1 (sign * (digitsVal intPart : ℚ))

/-- `[float(x) for x in parts]`: all-or-nothing, a single bad field makes the
whole comprehension raise (modelled as `none`). -/
def floatList : List String → Option (List ℚ)
  | [] => some []
  | s :: rest =>
    match pyFloat s, floatList rest with
    | some q, some qs => some (q :: qs)
    | _, _ => none

/-- The Sweep record returned by `read_spectrum_data`. -/
structure Sweep where
  freq_low : ℚ
  freq_high : ℚ
  db_values : List ℚ
deriving Repr, DecidableEq

/-- `read_spectrum_data` from the source.  The file is `none` when absent;
otherwise its list of lines.  Every failure path of the Python code (missing
file, no lines, fewer than 6 comma-separated fields, a `float()` call
raising) returns `none`. -/
def read_spectrum_data (file : Option (List String)) : Option Sweep :=
  match file with
  | none => none
  | some lines =>
    match lines.getLast? with
    | none => none
    | some last_raw =>
      let parts := (pyStrip last_raw).splitOn ","
      if parts.length < 6 then none
      else
        match pyFloat (parts.getD 2 ""), pyFloat (parts.getD 3 ""),
              floatList (parts.drop 6) with
        | some freq_low, some freq_high, some db_values =>
          some ⟨freq_low, freq_high, db_values⟩
        | _, _, _ => none

/-! The renderer.  `create_spectrum_image` is modelled as the sequence of
drawing operations issued to PIL, in order; the raster itself is the fold of
these operations, so equal operation lists give identical frames.  The
ambient inputs the Python code reads (whether the DejaVu font file loads, and
`time.strftime` for the timestamp) are an explicit `RenderEnv`. -/

/-- One PIL drawing call: the background fill of `Image.new`, `draw.line`,
`draw.rectangle` or `draw.text`.  The `font` field is the point size when the
truetype font loaded, `none` for the default font fallback. -/
inductive DrawOp where
  | fill (color : ℤ × ℤ × ℤ)
  | line (x1 y1 x2 y2 : ℚ) (color : ℤ × ℤ × ℤ) (width : ℕ)
  | rect (x1 y1 x2 y2 : ℚ) (color : ℤ × ℤ × ℤ)
  | text (x y : ℚ) (s : String) (color : ℤ × ℤ × ℤ) (font : Option ℕ)
deriving Repr, DecidableEq

/-- Ambient inputs of one `create_spectrum_image` call. -/
structure RenderEnv where
  fontOk : Bool
  timestamp : String
deriving Repr, DecidableEq

/-- The font obtained by the `try: truetype ... except: load_default` idiom. -/
def fontSz (env : RenderEnv) (n : ℕ) : Option ℕ :=
  if env.fontOk then some n else none

def margin_x : ℤ := 100
def margin_y : ℤ := 100
def plot_width : ℤ := SCREEN_WIDTH - 2 * margin_x
def plot_height : ℤ := SCREEN_HEIGHT - 2 * margin_y

/-- Python `range(start, stop, step)` for a positive step. -/
def pyRange (start stop step : ℕ) : List ℕ :=
  List.range' start ((stop - start + step - 1) / step) step

/-- The y coordinates of the horizontal grid lines:
`margin_y + int(plot_height * i / 10)` for `i in range(0, 11, 2)`. -/
def grid_horizontal_ys : List ℤ :=
  (pyRange 0 11 2).map (fun i => margin_y + pyint ((plot_height : ℚ) * i / 10))

/-- The x coordinates of the vertical grid lines:
`margin_x + int(plot_width * i / 10)` for `i in range(0, 11, 2)`. -/
def grid_vertical_xs : List ℤ :=
  (pyRange 0 11 2).map (fun i => margin_x + pyint ((plot_width : ℚ) * i / 10))

/-- The grid-drawing loops of `create_spectrum_image`. -/
def gridOps : List DrawOp :=
  grid_horizontal_ys.map (fun y =>
    DrawOp.line (margin_x : ℚ) (y : ℚ) ((SCREEN_WIDTH - margin_x : ℤ) : ℚ) (y : ℚ) GRID_COLOR 1)
  ++ grid_vertical_xs.map (fun x =>
    DrawOp.line (x : ℚ) (margin_y : ℚ) (x : ℚ) ((SCREEN_HEIGHT - margin_y : ℤ) : ℚ) GRID_COLOR 1)

/-- The bar-drawing loop (`BARS_STYLE` branch). -/
def barOps (normalized : List ℚ) : List DrawOp :=
  let bar_width : ℚ := (plot_width : ℚ) / normalized.length
  (List.range normalized.length).map (fun i =>
    let value := normalized.getD i 0
    let x := (margin_x : ℚ) + i * bar_width
    let bar_height := value * plot_height
    let y := (SCREEN_HEIGHT : ℚ) - margin_y - bar_height
    DrawOp.rect x y (x + bar_width - 1) ((SCREEN_HEIGHT - margin_y : ℤ) : ℚ)
      (spectrum_color_gradient value))

/-- `char_index = int(value * (len(ASCII_CHARS) - 1))` from the ASCII branch. -/
def char_index (value : ℚ) : ℤ :=
  pyint (value * ((ASCII_CHARS.length : ℚ) - 1))

/-- Python list indexing: negative indexes count from the end, out-of-range
raises (`none`). -/
def pyListGet {α : Type} (l : List α) (i : ℤ) : Option α :=
  if 0 ≤ i then l.get? i.toNat
  else if 0 ≤ (l.length : ℤ) + i then l.get? ((l.length : ℤ) + i).toNat
  else none

/-- The glyph-stacking loop (`not BARS_STYLE` branch). -/
def asciiOps (env : RenderEnv) (normalized : List ℚ) : List DrawOp :=
  let bar_width : ℚ := (plot_width : ℚ) / normalized.length
  (List.range normalized.length).flatMap (fun i =>
    let value := normalized.getD i 0
    let x := (margin_x : ℚ) + i * bar_width
    let char := (pyListGet ASCII_CHARS (char_index value)).getD ""
    let num_chars := (pyint (value * 30)).toNat
    (List.range num_chars).map (fun j =>
      DrawOp.text x ((SCREEN_HEIGHT - margin_y - j * 20 : ℤ) : ℚ) char
        SPECTRUM_COLOR (fontSz env 20)))

/-- Python `f"{q:.1f}"` on our rational model of floats: one decimal digit,
ties rounded up (the binary-float tie-to-even cases of CPython are not
distinguished by any property below). -/
def pyFormatF1 (q : ℚ) : String :=
  let n : ℤ := ⌊q * 10 + 1/2⌋
  let sign := if n < 0 then "-" else ""
  let m := n.natAbs
  sign ++ toString (m / 10) ++ "." ++ toString (m % 10)

/-- The title and frequency-axis labels of `create_spectrum_image`. -/
def labelOps (env : RenderEnv) (sd : Sweep) : List DrawOp :=
  let title := "RTL-SDR SPECTRUM: " ++ pyFormatF1 (sd.freq_low / 1000000)
    ++ " - " ++ pyFormatF1 (sd.freq_high / 1000000) ++ " MHz"
  DrawOp.text (margin_x : ℚ) 30 title TEXT_COLOR (fontSz env 24)
  :: (List.range 6).map (fun i =>
    let freq_mhz := sd.freq_low / 1000000 + (sd.freq_high - sd.freq_low) / 1000000 * i / 5
    let x := margin_x + pyint ((plot_width : ℚ) * i / 5)
    DrawOp.text ((x : ℚ) - 30) ((SCREEN_HEIGHT - margin_y + 10 : ℤ) : ℚ)
      (pyFormatF1 freq_mhz) TEXT_COLOR (fontSz env 18))

/-- The waiting message drawn in the no-data state. -/
def waitingMsg : String := "Waiting for RTL-SDR data..."

/-- `create_spectrum_image` from the source, as the ordered list of drawing
operations.  `spectrum_data = none` is Python's `None`. -/
def create_spectrum_image (spectrum_data : Option Sweep) (env : RenderEnv) :
    List DrawOp :=
  let base : List DrawOp := [DrawOp.fill BG_COLOR]
  match spectrum_data with
  | none =>
    base ++ [DrawOp.text ((SCREEN_WIDTH / 2 - 200 : ℤ) : ℚ) ((SCREEN_HEIGHT / 2 : ℤ) : ℚ)
      waitingMsg TEXT_COLOR (fontSz env 40)]
  | some sd =>
    if sd.db_values.isEmpty then base
    else
      let normalized := normalize_db_values sd.db_values
      base ++ gridOps
        ++ (if BARS_STYLE then barOps normalized else asciiOps env normalized)
        ++ labelOps env sd
        ++ [DrawOp.text ((SCREEN_WIDTH - margin_x - 200 : ℤ) : ℚ) 30
              env.timestamp TEXT_COLOR (fontSz env 18)]

/-- A color channel triple with every channel an integer in `[0, 255]`. -/
def colorInRange (c : ℤ × ℤ × ℤ) : Prop :=
  0 ≤ c.1 ∧ c.1 ≤ 255 ∧ 0 ≤ c.2.1 ∧ c.2.1 ≤ 255 ∧ 0 ≤ c.2.2 ∧ c.2.2 ≤ 255

instance (c : ℤ × ℤ × ℤ) : Decidable (colorInRange c) := by
  unfold colorInRange; infer_instance

/-- Whether a drawing operation is a `draw.rectangle` call (a spectrum bar). -/
def DrawOp.isRect : DrawOp → Bool
  | .rect .. => true
  | _ => false

theorem pyint_of_nonneg {q : ℚ} (h : 0 ≤ q) : pyint q = ⌊q⌋ := by
  simp [pyint, not_lt.mpr h]

theorem pyint_bounds {q : ℚ} (h0 : 0 ≤ q) (h1 : q ≤ 255) :
    0 ≤ pyint q ∧ pyint q ≤ 255 := by
  rw [pyint_of_nonneg h0]
  refine ⟨Int.floor_nonneg.mpr h0, ?_⟩
  calc ⌊q⌋ ≤ ⌊(255 : ℚ)⌋ := Int.floor_le_floor h1
  _ = 255 := by norm_num

/-- C1: `spectrum_color_gradient` is a pure function on `[0,1]` built from
four linearly interpolated segments (dark→blue below 0.3, blue→green on
[0.3, 0.6), green→yellow on [0.6, 0.8), yellow→red from 0.8); it maps 0 to
`(0,0,0)` and 1 to `(255,0,0)`, keeps every channel an integer in `[0,255]`
on `[0,1]`, and is continuous at the boundaries 0.3, 0.6, 0.8 up to rounding
(each lower segment, evaluated at the boundary, agrees with the function
there). -/
theorem spectrum_color_gradient_spec :
    spectrum_color_gradient 0 = (0, 0, 0) ∧
    spectrum_color_gradient 1 = (255, 0, 0) ∧
    (∀ value : ℚ, 0 ≤ value → value ≤ 1 →
      colorInRange (spectrum_color_gradient value)) ∧
    gradient_seg1 (3/10) = spectrum_color_gradient (3/10) ∧
    gradient_seg2 (6/10) = spectrum_color_gradient (6/10) ∧
    gradient_seg3 (8/10) = spectrum_color_gradient (8/10) := by
  refine ⟨by with_unfolding_all rfl, by with_unfolding_all rfl, ?_,
    by with_unfolding_all rfl, by with_unfolding_all rfl, by with_unfolding_all rfl⟩
  intro v h0 h1
  unfold spectrum_color_gradient
  split_ifs with hv1 hv2 hv3
  · have he : v / (3/10) * 255 = v * 850 := by ring
    have hb := pyint_bounds (q := v / (3/10) * 255)
      (by rw [he]; nlinarith) (by rw [he]; nlinarith)
    simp only [gradient_seg1, colorInRange]
    exact ⟨le_refl 0, by norm_num, le_refl 0, by norm_num, hb.1, hb.2⟩
  · have h03 : (3:ℚ)/10 ≤ v := not_lt.mp hv1
    have hg : (v - 3/10) / (3/10) * 255 = v * 850 - 255 := by ring
    have hbg := pyint_bounds (q := (v - 3/10) / (3/10) * 255)
      (by rw [hg]; nlinarith) (by rw [hg]; nlinarith)
    have hb : (1 - (v - 3/10) / (3/10)) * 255 = 510 - v * 850 := by ring
    have hbb := pyint_bounds (q := (1 - (v - 3/10) / (3/10)) * 255)
      (by rw [hb]; nlinarith) (by rw [hb]; nlinarith)
    simp only [gradient_seg2, colorInRange]
    exact ⟨le_refl 0, by norm_num, hbg.1, hbg.2, hbb.1, hbb.2⟩
  · have h06 : (6:ℚ)/10 ≤ v := not_lt.mp hv2
    have hr : (v - 6/10) / (2/10) * 255 = v * 1275 - 765 := by ring
    have hbr := pyint_bounds (q := (v - 6/10) / (2/10) * 255)
      (by rw [hr]; nlinarith) (by rw [hr]; nlinarith)
    simp only [gradient_seg3, colorInRange]
    exact ⟨hbr.1, hbr.2, by norm_num, by norm_num, le_refl 0, by norm_num⟩
  · have h08 : (8:ℚ)/10 ≤ v := not_lt.mp hv3
    have hg : (1 - (v - 8/10) / (2/10)) * 255 = 1275 - v * 1275 := by ring
    have hbg := pyint_bounds (q := (1 - (v - 8/10) / (2/10)) * 255)
      (by rw [hg]; nlinarith) (by rw [hg]; nlinarith)
    simp only [gradient_seg4, colorInRange]
    exact ⟨by norm_num, by norm_num, hbg.1, hbg.2, le_refl 0, by norm_num⟩

theorem spectrum_color_gradient_spec_witness :
    colorInRange (spectrum_color_gradient (1/2)) :=
  spectrum_color_gradient_spec.2.2.1 (1/2) (by norm_num) (by norm_num)

theorem foldl_min_mem (xs : List ℚ) (x : ℚ) : xs.foldl min x ∈ x :: xs := by
  induction xs generalizing x with
  | nil => simp
  | cons y ys ih =>
    show ys.foldl min (min x y) ∈ x :: y :: ys
    rcases List.mem_cons.mp (ih (min x y)) with h | h
    · rcases min_choice x y with hc | hc
      · rw [h, hc]; exact List.mem_cons_self _ _
      · rw [h, hc]; exact List.mem_cons.mpr (Or.inr (List.mem_cons_self _ _))
    · exact List.mem_cons.mpr (Or.inr (List.mem_cons.mpr (Or.inr h)))

theorem foldl_max_mem (xs : List ℚ) (x : ℚ) : xs.foldl max x ∈ x :: xs := by
  induction xs generalizing x with
  | nil => simp
  | cons y ys ih =>
    show ys.foldl max (max x y) ∈ x :: y :: ys
    rcases List.mem_cons.mp (ih (max x y)) with h | h
    · rcases max_choice x y with hc | hc
      · rw [h, hc]; exact List.mem_cons_self _ _
      · rw [h, hc]; exact List.mem_cons.mpr (Or.inr (List.mem_cons_self _ _))
    · exact List.mem_cons.mpr (Or.inr (List.mem_cons.mpr (Or.inr h)))

theorem foldl_min_le_mem_cons (xs : List ℚ) (x y : ℚ) (hy : y ∈ x :: xs) :
    xs.foldl min x ≤ y := by
  rcases List.mem_cons.mp hy with h | h
  · exact h ▸ foldl_min_le_self xs x
  · exact foldl_min_le_mem xs x y h

theorem mem_cons_le_foldl_max (xs : List ℚ) (x y : ℚ) (hy : y ∈ x :: xs) :
    y ≤ xs.foldl max x := by
  rcases List.mem_cons.mp hy with h | h
  · exact h ▸ self_le_foldl_max xs x
  · exact mem_le_foldl_max xs x y h

theorem getD_map_of_lt {α β : Type} (f : α → β) (l : List α) (i : ℕ)
    (h : i < l.length) (d : α) (d' : β) :
    (l.map f).getD i d' = f (l.getD i d) := by
  rw [List.getD_eq_getElem?_getD, List.getD_eq_getElem?_getD,
    List.getElem?_map, List.getElem?_eq_getElem h]
  rfl

/-- C2: for a non-empty reading list whose minimum differs from its maximum,
every normalized value lies in `[0,1]`, every position holding the maximum
normalizes to 1 and every position holding the minimum to 0; for a non-empty
all-equal list, the result is the same-length constant list of 0.5 (the
division is never taken). -/
theorem normalize_db_values_spec (x : ℚ) (xs : List ℚ) :
    ((xs.foldl min x ≠ xs.foldl max x) →
      (∀ v ∈ normalize_db_values (x :: xs), 0 ≤ v ∧ v ≤ 1) ∧
      (∀ i, i < (x :: xs).length → (x :: xs).getD i 0 = xs.foldl max x →
        (normalize_db_values (x :: xs)).getD i 0 = 1) ∧
      (∀ i, i < (x :: xs).length → (x :: xs).getD i 0 = xs.foldl min x →
        (normalize_db_values (x :: xs)).getD i 0 = 0)) ∧
    ((∀ y ∈ x :: xs, y = x) →
      normalize_db_values (x :: xs) = List.replicate (x :: xs).length (1/2)) := by
  constructor
  · intro hne
    have hlt : xs.foldl min x < xs.foldl max x :=
      lt_of_le_of_ne (foldl_min_le_foldl_max xs x) hne
    have hnorm : normalize_db_values (x :: xs) =
        (x :: xs).map (fun db =>
          (db - xs.foldl min x) / (xs.foldl max x - xs.foldl min x)) := by
      simp only [normalize_db_values]
      rw [if_neg (fun h => hne h.symm)]
    refine ⟨?_, ?_, ?_⟩
    · intro v hv
      rw [hnorm] at hv
      obtain ⟨u, hu, rfl⟩ := List.mem_map.mp hv
      have hmin : xs.foldl min x ≤ u := foldl_min_le_mem_cons xs x u hu
      have hmax : u ≤ xs.foldl max x := mem_cons_le_foldl_max xs x u hu
      constructor
      · exact div_nonneg (by linarith) (by linarith)
      · rw [div_le_one (by linarith)]; linarith
    · intro i hi hival
      rw [hnorm, getD_map_of_lt _ _ i hi 0 0, hival,
        div_self (ne_of_gt (by linarith))]
    · intro i hi hival
      rw [hnorm, getD_map_of_lt _ _ i hi 0 0, hival, sub_self, zero_div]
  · intro hall
    have hmin : xs.foldl min x = x := hall _ (foldl_min_mem xs x)
    have hmax : xs.foldl max x = x := hall _ (foldl_max_mem xs x)
    simp only [normalize_db_values]
    rw [hmax, hmin, if_pos rfl]

theorem normalize_db_values_spec_witness :
    (normalize_db_values [(-70 : ℚ), -60, -50, -80]).getD 2 0 = 1 ∧
    (normalize_db_values [(-70 : ℚ), -60, -50, -80]).getD 3 0 = 0 ∧
    normalize_db_values [(5 : ℚ), 5] = List.replicate 2 (1/2) := by
  refine ⟨?_, ?_, ?_⟩
  · exact ((normalize_db_values_spec (-70) [-60, -50, -80]).1
      (by with_unfolding_all decide)).2.1 2 (by norm_num) (by with_unfolding_all decide)
  · exact ((normalize_db_values_spec (-70) [-60, -50, -80]).1
      (by with_unfolding_all decide)).2.2 3 (by norm_num) (by with_unfolding_all decide)
  · exact (normalize_db_values_spec 5 [5]).2 (by intro y hy; fin_cases hy <;> rfl)

/-- C10: `normalize_db_values` preserves the length of its input, and maps
the empty list to the empty list. -/
theorem normalize_db_values_length (db_values : List ℚ) :
    (normalize_db_values db_values).length = db_values.length ∧
    normalize_db_values ([] : List ℚ) = [] := by
  refine ⟨?_, rfl⟩
  cases db_values with
  | nil => rfl
  | cons x xs =>
    simp only [normalize_db_values]
    split <;> simp

theorem floatList_length (l : List String) (qs : List ℚ)
    (h : floatList l = some qs) : qs.length = l.length := by
  induction l generalizing qs with
  | nil =>
    simp only [floatList, Option.some.injEq] at h
    simp [← h]
  | cons s rest ih =>
    simp only [floatList] at h
    cases hf : pyFloat s with
    | none => rw [hf] at h; exact absurd h (by simp)
    | some q =>
      rw [hf] at h
      cases hr : floatList rest with
      | none => rw [hr] at h; exact absurd h (by simp)
      | some qs' =>
        rw [hr] at h
        simp only [Option.some.injEq] at h
        rw [← h]
        simp [ih qs' hr]

/-- C3: when the file's last line, stripped and split on commas, has at least
6 fields, fields 2 and 3 parse as floats and all fields from index 6 onward
parse as floats (at least one of them), `read_spectrum_data` returns the
Sweep whose `freq_low` is field 2, `freq_high` is field 3 and whose
`db_values` are exactly the parses of the fields from index 6 on, in order,
so their number equals the number of trailing fields. -/
theorem read_spectrum_data_parses (lines : List String) (l : String)
    (hlast : lines.getLast? = some l)
    (h6 : 6 ≤ ((pyStrip l).splitOn ",").length)
    (fl fh : ℚ) (dbs : List ℚ)
    (h2 : pyFloat (((pyStrip l).splitOn ",").getD 2 "") = some fl)
    (h3 : pyFloat (((pyStrip l).splitOn ",").getD 3 "") = some fh)
    (hdb : floatList (((pyStrip l).splitOn ",").drop 6) = some dbs)
    (hN : 1 ≤ (((pyStrip l).splitOn ",").drop 6).length) :
    read_spectrum_data (some lines) = some ⟨fl, fh, dbs⟩ ∧
    dbs.length = (((pyStrip l).splitOn ",").drop 6).length := by
  refine ⟨?_, floatList_length _ _ hdb⟩
  simp only [read_spectrum_data, hlast]
  rw [if_neg (by omega), h2, h3, hdb]

theorem read_spectrum_data_parses_witness :
    read_spectrum_data (some ["0,1,2,3,4,5,6"]) = some ⟨2, 3, [6]⟩ ∧
    ([(6 : ℚ)]).length = (((pyStrip "0,1,2,3,4,5,6").splitOn ",").drop 6).length :=
  read_spectrum_data_parses ["0,1,2,3,4,5,6"] "0,1,2,3,4,5,6" rfl
    (by with_unfolding_all decide) 2 3 [6] (by with_unfolding_all rfl)
    (by with_unfolding_all rfl) (by with_unfolding_all rfl)
    (by with_unfolding_all decide)

/-- C4: `read_spectrum_data` is total (no exception escapes: it always
returns a Sweep or the no-data `none`), and returns `none` when the file is
absent, when it has no lines, when the last line has fewer than 6 fields,
and when any required field (the frequency bounds or any power reading)
fails to parse as a float. -/
theorem read_spectrum_data_error_handling :
    (∀ file, read_spectrum_data file = none ∨
      ∃ s, read_spectrum_data file = some s) ∧
    read_spectrum_data none = none ∧
    read_spectrum_data (some []) = none ∧
    (∀ lines l, lines.getLast? = some l →
      ((pyStrip l).splitOn ",").length < 6 →
      read_spectrum_data (some lines) = none) ∧
    (∀ lines l, lines.getLast? = some l →
      (pyFloat (((pyStrip l).splitOn ",").getD 2 "") = none ∨
       pyFloat (((pyStrip l).splitOn ",").getD 3 "") = none ∨
       floatList (((pyStrip l).splitOn ",").drop 6) = none) →
      read_spectrum_data (some lines) = none) := by
  refine ⟨?_, rfl, rfl, ?_, ?_⟩
  · intro file
    cases h : read_spectrum_data file with
    | none => exact Or.inl rfl
    | some s => exact Or.inr ⟨s, rfl⟩
  · intro lines l hlast hlen
    simp only [read_spectrum_data, hlast]
    rw [if_pos hlen]
  · intro lines l hlast hbad
    simp only [read_spectrum_data, hlast]
    by_cases hlen : ((pyStrip l).splitOn ",").length < 6
    · rw [if_pos hlen]
    · rw [if_neg hlen]
      cases h2 : pyFloat (((pyStrip l).splitOn ",").getD 2 "") <;>
        cases h3 : pyFloat (((pyStrip l).splitOn ",").getD 3 "") <;>
        cases hdb : floatList (((pyStrip l).splitOn ",").drop 6) <;>
        simp_all

theorem read_spectrum_data_error_handling_witness :
    read_spectrum_data (some ["1,2,3"]) = none ∧
    read_spectrum_data (some ["a,b,c,d,e,f"]) = none := by
  constructor
  · exact read_spectrum_data_error_handling.2.2.2.1 ["1,2,3"] "1,2,3" rfl
      (by with_unfolding_all decide)
  · exact read_spectrum_data_error_handling.2.2.2.2 ["a,b,c,d,e,f"] "a,b,c,d,e,f" rfl
      (Or.inl (by with_unfolding_all rfl))

/-- C5 counterexample: on a file whose last line is `a,b,2,1,c,d` (exactly 6
fields, frequency fields out of order), `read_spectrum_data` returns a Sweep
whose `power_readings` are empty and whose `freq_low` exceeds `freq_high`,
so the claimed data-model invariant fails for a returned Sweep. -/
theorem sweep_invariant_counterexample :
    read_spectrum_data (some ["a,b,2,1,c,d"]) = some ⟨2, 1, []⟩ ∧
    ¬ ((Sweep.mk 2 1 []).db_values ≠ [] ∧
       (Sweep.mk 2 1 []).freq_low ≤ (Sweep.mk 2 1 []).freq_high) := by
  refine ⟨by with_unfolding_all rfl, ?_⟩
  intro h
  exact h.1 rfl

/-- C5 amended: a Sweep returned by `read_spectrum_data` satisfies the
invariant under the minimal extra conditions the code actually needs: its
`power_readings` are non-empty whenever the last line has at least 7 fields,
and `freq_low ≤ freq_high` whenever the parsed field 2 is at most the parsed
field 3. -/
theorem read_spectrum_data_invariant_amended (lines : List String) (s : Sweep)
    (l : String) (hlast : lines.getLast? = some l)
    (h : read_spectrum_data (some lines) = some s)
    (h7 : 7 ≤ ((pyStrip l).splitOn ",").length) :
    s.db_values ≠ [] ∧
    (∀ fl fh : ℚ, pyFloat (((pyStrip l).splitOn ",").getD 2 "") = some fl →
      pyFloat (((pyStrip l).splitOn ",").getD 3 "") = some fh →
      fl ≤ fh → s.freq_low ≤ s.freq_high) := by
  simp only [read_spectrum_data, hlast] at h
  rw [if_neg (by omega)] at h
  cases h2 : pyFloat (((pyStrip l).splitOn ",").getD 2 "") with
  | none =>
    rw [h2] at h
    cases h3 : pyFloat (((pyStrip l).splitOn ",").getD 3 "") <;>
      cases hdb : floatList (((pyStrip l).splitOn ",").drop 6) <;> simp_all
  | some fl' =>
    rw [h2] at h
    cases h3 : pyFloat (((pyStrip l).splitOn ",").getD 3 "") with
    | none =>
      rw [h3] at h
      cases hdb : floatList (((pyStrip l).splitOn ",").drop 6) <;> simp_all
    | some fh' =>
      rw [h3] at h
      cases hdb : floatList (((pyStrip l).splitOn ",").drop 6) with
      | none => rw [hdb] at h; exact absurd h (by simp)
      | some dbs =>
        rw [hdb] at h
        simp only [Option.some.injEq] at h
        subst h
        constructor
        · have hlen := floatList_length _ _ hdb
          rw [List.length_drop] at hlen
          intro hnil
          have hnil' : dbs = [] := hnil
          rw [hnil'] at hlen
          simp at hlen
          omega
        · intro fl fh hfl hfh hle
          obtain rfl : fl' = fl := Option.some.inj hfl
          obtain rfl : fh' = fh := Option.some.inj hfh
          exact hle

theorem read_spectrum_data_invariant_amended_witness :
    (Sweep.mk 1 2 [7]).db_values ≠ [] ∧
    (Sweep.mk 1 2 [7]).freq_low ≤ (Sweep.mk 1 2 [7]).freq_high := by
  have h := read_spectrum_data_invariant_amended ["q,w,1,2,e,r,7"] ⟨1, 2, [7]⟩
    "q,w,1,2,e,r,7" rfl (by with_unfolding_all rfl) (by with_unfolding_all decide)
  exact ⟨h.1, h.2 1 2 (by with_unfolding_all rfl) (by with_unfolding_all rfl)
    (by norm_num)⟩

/-- C7: the end-to-end example: the single capture row
`2024-01-01,12:00:00,88000000,108000000,10000,2000,-70,-60,-50,-80` parses
to the Sweep `(88000000, 108000000, [-70, -60, -50, -80])`, and normalizing
those readings gives `[1/3, 2/3, 1, 0]` (≈ `[0.333, 0.667, 1.0, 0.0]`). -/
theorem end_to_end_example :
    read_spectrum_data
      (some ["2024-01-01,12:00:00,88000000,108000000,10000,2000,-70,-60,-50,-80"]) =
      some ⟨88000000, 108000000, [-70, -60, -50, -80]⟩ ∧
    normalize_db_values [-70, -60, -50, -80] = [1/3, 2/3, 1, 0] :=
  ⟨by with_unfolding_all rfl, by with_unfolding_all rfl⟩

/-- C9: in the ASCII rendering style, for every normalized value in `[0,1]`
the computed character index `int(value * (len(ASCII_CHARS) - 1))` lies in
`[0, 4]`, hence strictly below the length of the 5-element ramp, and Python
indexing of `ASCII_CHARS` with it succeeds. -/
theorem char_index_in_bounds (value : ℚ) (h0 : 0 ≤ value) (h1 : value ≤ 1) :
    0 ≤ char_index value ∧ char_index value ≤ 4 ∧
    char_index value < (ASCII_CHARS.length : ℤ) ∧
    (pyListGet ASCII_CHARS (char_index value)).isSome = true := by
  have h4 : char_index value = ⌊value * 4⌋ := by
    unfold char_index
    rw [show ((ASCII_CHARS.length : ℚ) - 1) = 4 by norm_num [ASCII_CHARS]]
    exact pyint_of_nonneg (by positivity)
  have hlo : 0 ≤ char_index value := by
    rw [h4]; exact Int.floor_nonneg.mpr (by positivity)
  have hhi : char_index value ≤ 4 := by
    rw [h4]
    calc ⌊value * 4⌋ ≤ ⌊(4 : ℚ)⌋ := Int.floor_le_floor (by linarith)
    _ = 4 := by norm_num
  refine ⟨hlo, hhi, by norm_num [ASCII_CHARS]; omega, ?_⟩
  rw [pyListGet, if_pos hlo, List.get?_eq_getElem?]
  rw [List.getElem?_eq_getElem (by simp [ASCII_CHARS]; omega)]
  rfl

theorem char_index_in_bounds_witness :
    0 ≤ char_index 1 ∧ char_index 1 ≤ 4 ∧
    char_index 1 < (ASCII_CHARS.length : ℤ) ∧
    (pyListGet ASCII_CHARS (char_index 1)).isSome = true :=
  char_index_in_bounds 1 (by norm_num) (by norm_num)

/-- C6 counterexample: the grid loops `for i in range(0, 11, 2)` draw 6
horizontal and 6 vertical lines (at fractions 0, 0.2, …, 1.0 of the plot),
not 5 of each as claimed. -/
theorem grid_five_lines_counterexample :
    ¬ (grid_horizontal_ys.length = 5 ∧ grid_vertical_xs.length = 5) := by
  intro h
  have : grid_horizontal_ys.length = 6 := by with_unfolding_all decide
  omega

/-- C6 amended: when rendering a Sweep, `create_spectrum_image` draws a
background grid of exactly 6 evenly spaced horizontal lines (spacing 176 px)
and 6 evenly spaced vertical lines (spacing 344 px), spanning from margin to
margin of the plot area. -/
theorem grid_six_lines_amended :
    grid_horizontal_ys = [100, 276, 452, 628, 804, 980] ∧
    grid_vertical_xs = [100, 444, 788, 1132, 1476, 1820] ∧
    grid_horizontal_ys.length = 6 ∧ grid_vertical_xs.length = 6 ∧
    grid_horizontal_ys.Chain' (fun a b => b - a = 176) ∧
    grid_vertical_xs.Chain' (fun a b => b - a = 344) ∧
    grid_horizontal_ys.head? = some margin_y ∧
    grid_horizontal_ys.getLast? = some (SCREEN_HEIGHT - margin_y) ∧
    grid_vertical_xs.head? = some margin_x ∧
    grid_vertical_xs.getLast? = some (SCREEN_WIDTH - margin_x) ∧
    (∀ (sd : Sweep) (env : RenderEnv), ¬ sd.db_values.isEmpty = true →
      create_spectrum_image (some sd) env =
        [DrawOp.fill BG_COLOR] ++ gridOps
          ++ (if BARS_STYLE then barOps (normalize_db_values sd.db_values)
              else asciiOps env (normalize_db_values sd.db_values))
          ++ labelOps env sd
          ++ [DrawOp.text ((SCREEN_WIDTH - margin_x - 200 : ℤ) : ℚ) 30
                env.timestamp TEXT_COLOR (fontSz env 18)]) := by
  have hys : grid_horizontal_ys = [100, 276, 452, 628, 804, 980] := by
    with_unfolding_all rfl
  have hxs : grid_vertical_xs = [100, 444, 788, 1132, 1476, 1820] := by
    with_unfolding_all rfl
  refine ⟨hys, hxs, by rw [hys]; rfl, by rw [hxs]; rfl, ?_, ?_,
    by rw [hys]; rfl, by rw [hys]; rfl, by rw [hxs]; rfl, by rw [hxs]; rfl, ?_⟩
  · rw [hys]
    simp only [List.chain'_cons, List.chain'_singleton, and_true]
    norm_num
  · rw [hxs]
    simp only [List.chain'_cons, List.chain'_singleton, and_true]
    norm_num
  · intro sd env hne
    simp only [create_spectrum_image]
    rw [if_neg hne]

theorem grid_six_lines_amended_witness :
    create_spectrum_image (some ⟨0, 0, [1]⟩) ⟨true, "t"⟩ =
      [DrawOp.fill BG_COLOR] ++ gridOps
        ++ (if BARS_STYLE then barOps (normalize_db_values [1])
            else asciiOps ⟨true, "t"⟩ (normalize_db_values [1]))
        ++ labelOps ⟨true, "t"⟩ ⟨0, 0, [1]⟩
        ++ [DrawOp.text ((SCREEN_WIDTH - margin_x - 200 : ℤ) : ℚ) 30
              "t" TEXT_COLOR (fontSz ⟨true, "t"⟩ 18)] :=
  grid_six_lines_amended.2.2.2.2.2.2.2.2.2.2 ⟨0, 0, [1]⟩ ⟨true, "t"⟩ (by decide)

/-- C8: rendering the no-data sentinel is deterministic and idempotent: for
any two calls whose font environment agrees (the timestamp may differ, as the
no-data branch never reads the clock), the frames are identical; the no-data
frame is exactly the background fill plus the centered waiting message, it
contains no bar rectangle, and no text besides that message (in particular no
timestamp overlay). -/
theorem no_data_render_idempotent (env env' : RenderEnv)
    (hfont : env.fontOk = env'.fontOk) :
    create_spectrum_image none env = create_spectrum_image none env' ∧
    create_spectrum_image none env =
      [DrawOp.fill BG_COLOR,
       DrawOp.text 760 540 waitingMsg TEXT_COLOR (fontSz env 40)] ∧
    (∀ op ∈ create_spectrum_image none env, op.isRect = false) ∧
    (∀ x y s c f, DrawOp.text x y s c f ∈ create_spectrum_image none env →
      s = waitingMsg) := by
  have hexp : ∀ e : RenderEnv, create_spectrum_image none e =
      [DrawOp.fill BG_COLOR,
       DrawOp.text 760 540 waitingMsg TEXT_COLOR (fontSz e 40)] := by
    intro e
    simp only [create_spectrum_image]
    norm_num [SCREEN_WIDTH, SCREEN_HEIGHT]
  refine ⟨?_, hexp env, ?_, ?_⟩
  · rw [hexp env, hexp env', fontSz, fontSz, hfont]
  · intro op hop
    rw [hexp env] at hop
    rcases List.mem_cons.mp hop with h | h
    · rw [h]; rfl
    · rcases List.mem_cons.mp h with h' | h'
      · rw [h']; rfl
      · simp at h'
  · intro x y s c f hmem
    rw [hexp env] at hmem
    rcases List.mem_cons.mp hmem with h | h
    · exact absurd h (by simp)
    · rcases List.mem_cons.mp h with h' | h'
      · exact (DrawOp.text.injEq _ _ _ _ _ _ _ _ _ _).mp h' |>.2.2.1
      · simp at h'

theorem no_data_render_idempotent_witness :
    create_spectrum_image none ⟨true, "2024-01-01 00:00:00"⟩ =
      create_spectrum_image none ⟨true, "2024-01-01 00:00:05"⟩ :=
  (no_data_render_idempotent ⟨true, "2024-01-01 00:00:00"⟩
    ⟨true, "2024-01-01 00:00:05"⟩ rfl).1

end RtlSpectrum
